import Mathlib

/-!
Verification development for the hivefeedprice repository.

The development shallowly embeds the price-aggregation core of the
repository: the price validator (`validatePriceData`), the
provider-to-`ExchangePrice` mapping layer, the aggregator's
final-price calculation and round-retry loop, the per-provider retry
helper (`fetchWithRetry`), the domain-aware error classifier
(`createPriceError` together with the typed errors' `isRetryable` /
`getRetryDelay` methods), and the Hive RPC failover wrapper
(`executeWithFailover`).

Numbers are embedded as rationals; where the JavaScript value space
matters (NaN, infinities) an explicit `JSNum` type is used.  Effectful
loops (retries, node rotation, sleeps) are embedded as pure functions
that additionally report the observable effects: number of attempts,
the list of sleep delays, and the final endpoint index.
-/

namespace HiveFeed

/-- Model of a JavaScript `number` as far as the validation code
inspects it: `NaN`, the two infinities, or a finite value (embedded as
a rational). -/
inductive JSNum where
  | nan : JSNum
  | posInf : JSNum
  | negInf : JSNum
  | finite (q : ℚ) : JSNum
deriving DecidableEq

/-- A raw input to `validatePriceData` (`data: unknown` in the source).
`strVal` carries the result of the JavaScript `parseFloat` coercion of
the string, `numVal` a numeric input (on which `Number` is the
identity), and `otherVal` any other runtime value together with the
result of the `Number(data)` coercion applied to it. -/
inductive RawData where
  | nullVal : RawData
  | undefinedVal : RawData
  | strVal (parsed : JSNum) : RawData
  | numVal (v : JSNum) : RawData
  | otherVal (coerced : JSNum) : RawData
deriving DecidableEq

/-- The result of the JavaScript numeric coercion performed by
`validatePriceData` (`typeof data === "string" ? parseFloat(data) :
Number(data)`); `none` when the value is absent and the coercion is
never reached. -/
def coerceRaw : RawData → Option JSNum
  | RawData.nullVal => none
  | RawData.undefinedVal => none
  | RawData.strVal p => some p
  | RawData.numVal v => some v
  | RawData.otherVal c => some c

/-- Validation error codes of the price domain
(`PRICE_ERROR_CODES.MISSING_PRICE_FIELD` / `INVALID_PRICE_DATA` /
`PRICE_OUT_OF_RANGE` in `src/types/errors`). -/
inductive ValidationCode where
  | missingField : ValidationCode
  | invalidData : ValidationCode
  | outOfRange : ValidationCode
deriving DecidableEq

/-- The numeric branch of `validatePriceData`: `isNaN(price) ||
!isFinite(price)` fails with `INVALID_PRICE_DATA`; `price <= 0 ||
price > 10000` fails with `PRICE_OUT_OF_RANGE`; otherwise the price is
returned. -/
def validateCoerced : JSNum → Except ValidationCode ℚ
  | JSNum.nan => Except.error ValidationCode.invalidData
  | JSNum.posInf => Except.error ValidationCode.invalidData
  | JSNum.negInf => Except.error ValidationCode.invalidData
  | JSNum.finite q =>
      if q ≤ 0 ∨ q > 10000 then Except.error ValidationCode.outOfRange
      else Except.ok q

/-- Embedding of `validatePriceData` (src/utils/price-validation): a
`null`/`undefined` input fails with `MISSING_PRICE_FIELD`, otherwise
the input is coerced to a number and checked by the numeric branch. -/
def validatePriceData (data : RawData) : Except ValidationCode ℚ :=
  match data with
  | RawData.nullVal => Except.error ValidationCode.missingField
  | RawData.undefinedVal => Except.error ValidationCode.missingField
  | RawData.strVal p => validateCoerced p
  | RawData.numVal v => validateCoerced v
  | RawData.otherVal c => validateCoerced c

/-- Embedding of `isValidPrice` (src/types/chain-errors.ts):
`typeof price === "number" && price > 0 && !isNaN(price)`.  Note that
`Infinity` is a number, is `> 0` and is not `NaN`, so it passes. -/
def isValidPrice : JSNum → Bool
  | JSNum.nan => false
  | JSNum.posInf => true
  | JSNum.negInf => false
  | JSNum.finite q => decide (0 < q)

deriving instance DecidableEq for Except

/-- One price provider as the mapping layer sees it in one round: its
`exchangeName` and the outcome of awaiting `getHivePrice()` (a JS
number on fulfilment, an error message on rejection). -/
structure Provider where
  exchangeName : String
  getHivePrice : Except String JSNum
deriving DecidableEq

/-- String rendering of a JS number, used only to build error
messages. -/
def jsNumToString : JSNum → String
  | JSNum.nan => "NaN"
  | JSNum.posInf => "Infinity"
  | JSNum.negInf => "-Infinity"
  | JSNum.finite q => toString q

/-- An `ExchangePrice` record as produced by the mapping layer, with
the price still a raw JS number. -/
structure MappedExchangePrice where
  exchange : String
  price : JSNum
  success : Bool
  error : Option String
deriving DecidableEq

/-- Embedding of `mapProvidersToExchangePrices`
(src/utils/provider-mapping.ts): per provider, a missing
`exchangeName` throws `"Invalid provider configuration"` (caught, with
the falsy name replaced by `"Unknown"`), an invalid price throws
`"Invalid price received: …"` (caught), and any rejection of
`getHivePrice` is caught; every caught error yields a `success=false`
entry with price `0` and the error message. -/
def mapProvidersToExchangePrices (ps : List Provider) : List MappedExchangePrice :=
  ps.map fun p =>
    if p.exchangeName = "" then
      { exchange := "Unknown", price := JSNum.finite 0, success := false,
        error := some "Invalid provider configuration" }
    else
      match p.getHivePrice with
      | Except.ok v =>
          if isValidPrice v then
            { exchange := p.exchangeName, price := v, success := true, error := none }
          else
            { exchange := p.exchangeName, price := JSNum.finite 0, success := false,
              error := some ("Invalid price received: " ++ jsNumToString v) }
      | Except.error m =>
          { exchange := p.exchangeName, price := JSNum.finite 0, success := false,
            error := some m }

/-- Embedding of `mapProvidersToDetailedPrices`
(src/utils/provider-mapping.ts): per provider, a fulfilled
`getHivePrice` yields a `success=true` entry with the raw value (no
validity check), and a rejection is caught and yields a
`success=false` entry with price `0` and the error message. -/
def mapProvidersToDetailedPrices (ps : List Provider) : List MappedExchangePrice :=
  ps.map fun p =>
    match p.getHivePrice with
    | Except.ok v =>
        { exchange := p.exchangeName, price := v, success := true, error := none }
    | Except.error m =>
        { exchange := p.exchangeName, price := JSNum.finite 0, success := false,
          error := some m }

/-- Modelled from the spec: `roundToThreeDecimals` is imported from
`src/utils/math`, whose source is not part of the provided files.  The
spec says results are "rounded to three decimal places"; this is the
JavaScript `Math.round(x * 1000) / 1000` (half rounds toward +∞),
which `round` on ℚ matches. -/
def roundToThreeDecimals (x : ℚ) : ℚ := ((round (x * 1000) : ℤ) : ℚ) / 1000

/-- An `ExchangePrice` at the aggregation layer, where the price has
already passed `isValidPrice` and is treated as an exact decimal. -/
structure ExchangePrice where
  exchange : String
  price : ℚ
  success : Bool
  error : Option String
deriving DecidableEq

/-- A `WeightedExchangePrice` (src/types/weighted-price-provider):
an `ExchangePrice` extended with its weight. -/
structure WeightedExchangePrice extends ExchangePrice where
  weight : ℚ
deriving DecidableEq

/-- Embedding of `WeightedPriceCalculator.calculateWeightedAverage`:
filter the successful entries, fail on an empty list or a zero total
weight, otherwise sum `price * (weight / totalWeight)` and round to
three decimals. -/
def calculateWeightedAverage (prices : List WeightedExchangePrice) : Except String ℚ :=
  let successfulPrices := prices.filter (fun p => p.success)
  if successfulPrices.isEmpty then
    Except.error "No successful prices for weighted average calculation"
  else
    let totalWeight := (successfulPrices.map (fun p => p.weight)).sum
    if totalWeight = 0 then Except.error "Total weight cannot be zero"
    else
      Except.ok (roundToThreeDecimals
        ((successfulPrices.map (fun p => p.price * (p.weight / totalWeight))).sum))

/-- The provider configuration as the aggregator uses it: the list of
`(name, weight)` pairs of the active provider configs, in insertion
order. -/
abbrev ProvidersConfig : Type := List (String × ℚ)

/-- The JavaScript `.toLowerCase()` applied to provider names,
embedded as the character-wise lowering of the string (provider names
are ASCII). -/
def toLowerKey (s : String) : String := ⟨s.data.map Char.toLower⟩

/-- Lookup in the aggregator's `providersConfig` map: the map is keyed
by `cfg.name.toLowerCase()` with later entries overwriting earlier
ones, and queried with `ep.exchange.toLowerCase()`. -/
def configWeight (cfgs : ProvidersConfig) (exchange : String) : Option ℚ :=
  ((List.map (fun c => (toLowerKey c.1, c.2)) cfgs).reverse).lookup (toLowerKey exchange)

/-- The JavaScript expression `config?.weight || 1.0`: a missing
config, a missing weight or a falsy (zero) weight all fall back to the
default weight 1.0. -/
def jsWeightOrDefault : Option ℚ → ℚ
  | some w => if w = 0 then 1 else w
  | none => 1

/-- Embedding of `PriceAggregator.applyWeights`: attach to each
exchange price the weight `config?.weight || 1.0` found under the
lower-cased exchange name. -/
def applyWeights (cfgs : ProvidersConfig) (exchangePrices : List ExchangePrice) :
    List WeightedExchangePrice :=
  exchangePrices.map fun ep =>
    { toExchangePrice := ep, weight := jsWeightOrDefault (configWeight cfgs ep.exchange) }

/-- Embedding of `PriceAggregator.calculateFinalPrice`: fail on an
empty list; attach weights; if any attached weight differs from 1.0
delegate to the weighted calculator, otherwise return the rounded
plain arithmetic mean of the successful prices. -/
def calculateFinalPrice (cfgs : ProvidersConfig) (successfulPrices : List ExchangePrice) :
    Except String ℚ :=
  if successfulPrices.isEmpty then
    Except.error "No successful prices to calculate average"
  else
    let weightedPrices := applyWeights cfgs successfulPrices
    if weightedPrices.any (fun p => decide (p.weight ≠ 1)) then
      calculateWeightedAverage weightedPrices
    else
      Except.ok (roundToThreeDecimals
        ((successfulPrices.map (fun ep => ep.price)).sum / (successfulPrices.length : ℚ)))

/-- The final-price calculation exactly as claim C1 words it: each
successful entry gets its configured weight, with the default 1.0
applied only when the configured weight is absent. -/
def claimedFinalPrice (cfgs : ProvidersConfig) (successfulPrices : List ExchangePrice) :
    Except String ℚ :=
  let ws := successfulPrices.map fun ep =>
    (ep.price, (configWeight cfgs ep.exchange).getD 1)
  if ws.any (fun pw => decide (pw.2 ≠ 1)) then
    let totalWeight := (ws.map (fun pw => pw.2)).sum
    if totalWeight = 0 then Except.error "Total weight cannot be zero"
    else
      Except.ok (roundToThreeDecimals ((ws.map (fun pw => pw.1 * pw.2)).sum / totalWeight))
  else
    Except.ok (roundToThreeDecimals
      ((successfulPrices.map (fun ep => ep.price)).sum / (successfulPrices.length : ℚ)))

/-- The final-price calculation as the amended claim words it: like
`claimedFinalPrice`, but the default weight 1.0 also replaces a
configured weight of 0 (the JavaScript `||` fallback), and the
weighted branch returns Σ(price × weight) / Σ(weight). -/
def amendedFinalPrice (cfgs : ProvidersConfig) (successfulPrices : List ExchangePrice) :
    Except String ℚ :=
  let ws := successfulPrices.map fun ep =>
    (ep.price, jsWeightOrDefault (configWeight cfgs ep.exchange))
  if ws.any (fun pw => decide (pw.2 ≠ 1)) then
    let totalWeight := (ws.map (fun pw => pw.2)).sum
    if totalWeight = 0 then Except.error "Total weight cannot be zero"
    else
      Except.ok (roundToThreeDecimals ((ws.map (fun pw => pw.1 * pw.2)).sum / totalWeight))
  else
    Except.ok (roundToThreeDecimals
      ((successfulPrices.map (fun ep => ep.price)).sum / (successfulPrices.length : ℚ)))

/-- Outcome of one run of the aggregator's round loop: the returned or
thrown value, the number of rounds that were actually fetched, and the
sleeps performed between rounds. -/
structure AggOutcome where
  result : Except String ℚ
  rounds : ℕ
  delays : List ℚ
deriving DecidableEq

/-- The aggregator's terminal error message (`maxRetries`
interpolated). -/
def finalFailureMessage (maxRetries : ℕ) : String :=
  "Failed to obtain HIVE price after " ++ toString maxRetries ++
    " attempts. All exchanges failed or timed out."

/-- The `PriceAggregator`'s fixed round-retry budget
(`private readonly maxRetries = 3`). -/
def aggregatorMaxRetries : ℕ := 3

/-- One round's observable outcome, as the loop body sees it: the
result of `fetchPricesWithTimeout` on round number `attempt`
(an exception is possible in principle and is caught by the loop). -/
def RoundFn : Type := ℕ → Except String (List ExchangePrice)

/-- The successful entries a round contributed (none when the round
threw). -/
def roundSuccesses : Except String (List ExchangePrice) → List ExchangePrice
  | Except.error _ => []
  | Except.ok eps => eps.filter (fun ep => ep.success)

/-- The `while` loop of `PriceAggregator.getAggregatedHivePrice`,
embedded with explicit fuel (`fuel = maxRetries - attempt + 1`).  A
round with at least one success returns `calculateFinalPrice` of the
successes, except that an exception from the calculation is caught and
treated like a failed round; between failed rounds the loop sleeps
`2000 * attempt` ms; after the last round it throws the terminal
error. -/
def aggGo (cfgs : ProvidersConfig) (rounds : RoundFn) (maxRetries : ℕ) :
    ℕ → ℕ → List ℚ → AggOutcome
  | 0, attempt, ds => ⟨Except.error (finalFailureMessage maxRetries), attempt - 1, ds⟩
  | fuel + 1, attempt, ds =>
    let retry : AggOutcome :=
      if fuel = 0 then ⟨Except.error (finalFailureMessage maxRetries), attempt, ds⟩
      else aggGo cfgs rounds maxRetries fuel (attempt + 1) (ds ++ [2000 * (attempt : ℚ)])
    match rounds attempt with
    | Except.error _ => retry
    | Except.ok eps =>
      let successfulPrices := eps.filter (fun ep => ep.success)
      if successfulPrices.isEmpty then retry
      else
        match calculateFinalPrice cfgs successfulPrices with
        | Except.ok v => ⟨Except.ok v, attempt, ds⟩
        | Except.error _ => retry

/-- Embedding of `PriceAggregator.getAggregatedHivePrice`: run the
round loop starting at attempt 1 with the fixed budget of 3 rounds. -/
def getAggregatedHivePrice (cfgs : ProvidersConfig) (rounds : RoundFn) : AggOutcome :=
  aggGo cfgs rounds aggregatorMaxRetries aggregatorMaxRetries 1 []

/-- Outcome of a run of `PriceProvider.fetchWithRetry`: the returned
or thrown value (`Except.error none` models the fallback
`new Error("All attempts failed …")` thrown when no attempt ever ran),
the number of calls made to the fetch function, and the backoff sleeps
performed between attempts. -/
structure RetryOutcome (E V : Type) where
  result : Except (Option E) V
  attempts : ℕ
  delays : List ℚ

/-- The `for` loop of `PriceProvider.fetchWithRetry`, embedded with
explicit fuel (`fuel = retryAttempts - attempt + 1`).  `fetchFn n` is
the outcome of the n-th call (1-based).  A successful call returns
immediately; a failed call records the error and, if attempts remain,
sleeps `retryDelay * 2 ^ (attempt - 1)` before the next call; after
the last failure the recorded error is thrown. -/
def retryGo {E V : Type} (retryDelay : ℚ) (fetchFn : ℕ → Except E V) :
    ℕ → ℕ → List ℚ → Option E → RetryOutcome E V
  | 0, attempt, ds, lastError => ⟨Except.error lastError, attempt - 1, ds⟩
  | fuel + 1, attempt, ds, _ =>
    match fetchFn attempt with
    | Except.ok v => ⟨Except.ok v, attempt, ds⟩
    | Except.error e =>
      if fuel = 0 then ⟨Except.error (some e), attempt, ds⟩
      else
        retryGo retryDelay fetchFn fuel (attempt + 1)
          (ds ++ [retryDelay * 2 ^ (attempt - 1)]) (some e)

/-- Embedding of `PriceProvider.fetchWithRetry` with its configurable
attempt budget and base delay (defaults 3 and 1000 ms). -/
def fetchWithRetry {E V : Type} (retryAttempts : ℕ) (retryDelay : ℚ)
    (fetchFn : ℕ → Except E V) : RetryOutcome E V :=
  retryGo retryDelay fetchFn retryAttempts 1 [] none

/-- An error thrown by a chain operation, identified (as in the
source) by its constructor name. -/
structure ChainError where
  name : String
deriving DecidableEq

/-- Embedding of `isRecoverableChainError` (src/types/chain-errors.ts):
the error's constructor name is one of the three recoverable Wax error
names. -/
def isRecoverableChainError (e : ChainError) : Bool :=
  ["WaxRequestTimeoutError", "WaxNon_2XX_3XX_ResponseCodeError",
    "WaxUnknownRequestError"].contains e.name

/-- What one call of the failover wrapper's operation does. -/
inductive OpOutcome (V : Type) where
  | ok (v : V) : OpOutcome V
  | err (e : ChainError) : OpOutcome V

/-- Outcome of a run of `executeWithFailover`: the returned value or
the propagated error (`Except.error none` models `throw lastError`
with `lastError` still `undefined`), the final value of
`currentNodeIndex`, the number of times the operation was attempted,
and the number of backoff sleeps performed. -/
structure FailoverOutcome (V : Type) where
  result : Except (Option ChainError) V
  finalIndex : ℕ
  attempts : ℕ
  sleeps : ℕ

/-- The `while` loop of `HiveChainWithFailover.executeWithFailover`,
embedded with explicit fuel (`fuel = maxRetries - attempt`).  `op n`
is the outcome of the n-th call of the operation (0-based, matching
the source's `attempt` counter).  Success returns immediately with the
node index unchanged; a non-recoverable error is re-thrown immediately
with the index unchanged; a recoverable error advances the index by
one position modulo the node count and sleeps, unless it consumed the
last attempt, in which case the recorded error is thrown. -/
def failoverGo {V : Type} (op : ℕ → OpOutcome V) (nodeCount : ℕ) :
    ℕ → ℕ → ℕ → ℕ → FailoverOutcome V
  | 0, attempt, idx, sleeps => ⟨Except.error none, idx, attempt, sleeps⟩
  | fuel + 1, attempt, idx, sleeps =>
    match op attempt with
    | OpOutcome.ok v => ⟨Except.ok v, idx, attempt + 1, sleeps⟩
    | OpOutcome.err e =>
      if isRecoverableChainError e then
        if fuel = 0 then ⟨Except.error (some e), idx, attempt + 1, sleeps⟩
        else failoverGo op nodeCount fuel (attempt + 1) ((idx + 1) % nodeCount) (sleeps + 1)
      else ⟨Except.error (some e), idx, attempt + 1, sleeps⟩

/-- Embedding of `HiveChainWithFailover.executeWithFailover`, starting
from the wrapper's current node index with the configured retry
budget. -/
def executeWithFailover {V : Type} (op : ℕ → OpOutcome V) (nodeCount maxRetries startIndex : ℕ) :
    FailoverOutcome V :=
  failoverGo op nodeCount maxRetries 0 startIndex 0

/-- The features of a raw error message that
`DomainAwareErrorHandler.createPriceError` inspects: the three
substring markers, the parsed `Retry-After` value when the rate-limit
regex matches, and the HTTP status when the status regex matches. -/
structure ErrorFeatures where
  hasTimeoutMarker : Bool
  hasConnectionFailureMarker : Bool
  hasRateLimitMarker : Bool
  retryAfter : Option ℕ
  httpStatus : Option ℕ
deriving DecidableEq

/-- The typed errors `createPriceError` can produce, by error code,
with the `retryAfter` value the `PriceAPIError` constructor stored
(only ever set on the rate-limited branch). -/
inductive TypedPriceError where
  | networkTimeout : TypedPriceError
  | networkConnectionFailed : TypedPriceError
  | apiRateLimited (retryAfter : Option ℕ) : TypedPriceError
  | apiServerError : TypedPriceError
  | apiNotFound : TypedPriceError
  | apiUnauthorized : TypedPriceError
  | apiInvalidResponse : TypedPriceError
deriving DecidableEq

/-- Embedding of `DomainAwareErrorHandler.createPriceError`
(src/utils/error-handlers): first match wins over the message
features, with the HTTP-status branches only reached when no message
marker matched. -/
def createPriceError (m : ErrorFeatures) : TypedPriceError :=
  if m.hasTimeoutMarker then TypedPriceError.networkTimeout
  else if m.hasConnectionFailureMarker then TypedPriceError.networkConnectionFailed
  else if m.hasRateLimitMarker then TypedPriceError.apiRateLimited m.retryAfter
  else
    match m.httpStatus with
    | some s =>
      if 500 ≤ s then TypedPriceError.apiServerError
      else if s = 404 then TypedPriceError.apiNotFound
      else if s = 401 ∨ s = 403 then TypedPriceError.apiUnauthorized
      else TypedPriceError.apiInvalidResponse
    | none => TypedPriceError.apiInvalidResponse

/-- Embedding of the produced error's own `isRetryable` method
(`PriceNetworkError.isRetryable` / `PriceAPIError.isRetryable`). -/
def isRetryable : TypedPriceError → Bool
  | TypedPriceError.networkTimeout => true
  | TypedPriceError.networkConnectionFailed => true
  | TypedPriceError.apiRateLimited _ => true
  | TypedPriceError.apiServerError => true
  | TypedPriceError.apiNotFound => false
  | TypedPriceError.apiUnauthorized => false
  | TypedPriceError.apiInvalidResponse => false

/-- Embedding of the produced error's own `getRetryDelay` method.  For
the network errors the delay is `1000 * multiplier` (timeout 2,
connection-failed 3); for the API errors the rate-limited branch uses
`this.retryAfter * 1000` only when `this.retryAfter` is truthy
(present and nonzero), falling back to the static table (rate-limited
5000, server-error 3000, others 0). -/
def getRetryDelay : TypedPriceError → ℕ
  | TypedPriceError.networkTimeout => 1000 * 2
  | TypedPriceError.networkConnectionFailed => 1000 * 3
  | TypedPriceError.apiRateLimited retryAfter =>
    match retryAfter with
    | some n => if n = 0 then 5000 else n * 1000
    | none => 5000
  | TypedPriceError.apiServerError => 3000
  | TypedPriceError.apiNotFound => 0
  | TypedPriceError.apiUnauthorized => 0
  | TypedPriceError.apiInvalidResponse => 0

/-! ## Helper lemmas -/

theorem sum_map_mul_div (l : List WeightedExchangePrice) (W : ℚ) :
    (l.map (fun p => p.price * (p.weight / W))).sum =
      (l.map (fun p => p.price * p.weight)).sum / W := by
  induction l with
  | nil => simp
  | cons a l ih => simp [div_eq_mul_inv, add_mul, mul_assoc] at ih ⊢; rw [ih]

theorem lookup_mem_values (l : List (String × ℚ)) (k : String) (w : ℚ)
    (h : l.lookup k = some w) : ∃ p ∈ l, p.2 = w := by
  induction l with
  | nil => simp [List.lookup] at h
  | cons a l ih =>
    rw [List.lookup] at h
    cases hk : k == a.1 with
    | true =>
      rw [hk] at h
      exact ⟨a, List.mem_cons_self a l, Option.some_inj.mp h⟩
    | false =>
      rw [hk] at h
      obtain ⟨p, hp, hw⟩ := ih h
      exact ⟨p, List.mem_cons_of_mem a hp, hw⟩

theorem configWeight_mem (cfgs : ProvidersConfig) (ex : String) (w : ℚ)
    (h : configWeight cfgs ex = some w) : ∃ c ∈ cfgs, c.2 = w := by
  obtain ⟨p, hp, hw⟩ := lookup_mem_values _ _ _ h
  rw [List.mem_reverse] at hp
  obtain ⟨c, hc, hcp⟩ := List.mem_map.mp hp
  exact ⟨c, hc, by rw [← hw, ← hcp]⟩

theorem jsWeightOrDefault_ne_zero (w : Option ℚ) : jsWeightOrDefault w ≠ 0 := by
  cases w with
  | none => simp [jsWeightOrDefault]
  | some w =>
    by_cases hw : w = 0 <;> simp [jsWeightOrDefault, hw]

theorem jsWeightOrDefault_pos (w : Option ℚ) (hw : ∀ q, w = some q → 0 ≤ q) :
    0 < jsWeightOrDefault w := by
  cases w with
  | none => norm_num [jsWeightOrDefault]
  | some q =>
    by_cases hq : q = 0
    · simp [jsWeightOrDefault, hq]
    · have := hw q rfl
      simp only [jsWeightOrDefault, if_neg hq]
      exact lt_of_le_of_ne this (Ne.symm hq)

theorem applyWeights_filter_success (cfgs : ProvidersConfig) (eps : List ExchangePrice)
    (hsucc : ∀ e ∈ eps, e.success = true) :
    (applyWeights cfgs eps).filter (fun p => p.success) = applyWeights cfgs eps := by
  apply List.filter_eq_self.mpr
  intro wp hwp
  obtain ⟨ep, hep, rfl⟩ := List.mem_map.mp hwp
  simpa using hsucc ep hep

theorem failoverGo_success {V : Type} (op : ℕ → OpOutcome V) (len fuel a idx s : ℕ)
    (v : V) (h : op a = OpOutcome.ok v) :
    failoverGo op len (fuel + 1) a idx s = ⟨Except.ok v, idx, a + 1, s⟩ := by
  simp [failoverGo, h]

theorem failoverGo_recoverable_step {V : Type} (op : ℕ → OpOutcome V)
    (len fuel a idx s : ℕ) (e : ChainError) (h : op a = OpOutcome.err e)
    (hrec : isRecoverableChainError e = true) :
    failoverGo op len (fuel + 2) a idx s =
      failoverGo op len (fuel + 1) (a + 1) ((idx + 1) % len) (s + 1) := by
  show failoverGo op len ((fuel + 1) + 1) a idx s = _
  simp [failoverGo, h, hrec]

/-! ## Claim theorems -/

/-- Claim C3: for every raw input, `validatePriceData` fails with
`MissingField` when the value is absent (null or undefined); otherwise
it coerces string or numeric input to a number and fails with
`InvalidData` when the coercion result is not-a-number or non-finite;
it fails with `OutOfRange` when the coerced price is ≤ 0 or > 10000;
and in all remaining cases it returns the coerced price.  The function
is a total Lean function, hence deterministic and side-effect free. -/
theorem claim_C3_validatePriceData (data : RawData) :
    (coerceRaw data = none →
      validatePriceData data = Except.error ValidationCode.missingField) ∧
    (∀ p, coerceRaw data = some p →
      p = JSNum.nan ∨ p = JSNum.posInf ∨ p = JSNum.negInf →
      validatePriceData data = Except.error ValidationCode.invalidData) ∧
    (∀ q, coerceRaw data = some (JSNum.finite q) → q ≤ 0 ∨ 10000 < q →
      validatePriceData data = Except.error ValidationCode.outOfRange) ∧
    (∀ q, coerceRaw data = some (JSNum.finite q) → 0 < q → q ≤ 10000 →
      validatePriceData data = Except.ok q) := by
  refine ⟨?_, ?_, ?_, ?_⟩
  · intro h
    cases data <;> simp [coerceRaw] at h <;> rfl
  · intro p hp hcase
    cases data <;> simp [coerceRaw] at hp <;> rw [← hp] at hcase <;>
      rcases hcase with h | h | h <;> simp [validatePriceData, ← hp, h, validateCoerced]
  · intro q hq hrange
    cases data <;> simp [coerceRaw] at hq <;> subst hq <;>
      simp [validatePriceData, validateCoerced, if_pos hrange]
  · intro q hq h0 h10000
    have hcond : ¬(q ≤ 0 ∨ 10000 < q) := by
      push_neg
      exact ⟨h0, h10000⟩
    cases data <;> simp [coerceRaw] at hq <;> subst hq <;>
      simp [validatePriceData, validateCoerced, if_neg hcond]

/-- Witness for claim C3: the string input parsing to 5 validates to
5, by the last clause of the theorem. -/
theorem claim_C3_witness :
    validatePriceData (RawData.strVal (JSNum.finite 5)) = Except.ok 5 :=
  (claim_C3_validatePriceData (RawData.strVal (JSNum.finite 5))).2.2.2 5 rfl
    (by norm_num) (by norm_num)

/-- Claim C6: a non-recoverable error from the operation is propagated
exactly as-is by `executeWithFailover`: exactly one attempt is made,
no backoff sleep happens, and the current node index is left
unchanged. -/
theorem claim_C6_nonrecoverable_immediate {V : Type} (op : ℕ → OpOutcome V)
    (e : ChainError) (nodeCount maxRetries startIndex : ℕ)
    (hop : op 0 = OpOutcome.err e)
    (hnr : isRecoverableChainError e = false)
    (hpos : 0 < maxRetries) :
    executeWithFailover op nodeCount maxRetries startIndex =
      ⟨Except.error (some e), startIndex, 1, 0⟩ := by
  obtain ⟨fuel, rfl⟩ : ∃ fuel, maxRetries = fuel + 1 :=
    ⟨maxRetries - 1, (Nat.succ_pred_eq_of_pos hpos).symm⟩
  simp [executeWithFailover, failoverGo, hop, hnr]

/-- Witness for claim C6: a `TypeError` (not in the recoverable list)
on the first call of the operation is re-thrown with one attempt, no
sleeps and an unrotated index. -/
theorem claim_C6_witness :
    executeWithFailover (fun _ => OpOutcome.err (V := ℕ) ⟨"TypeError"⟩) 3 6 0 =
      ⟨Except.error (some ⟨"TypeError"⟩), 0, 1, 0⟩ :=
  claim_C6_nonrecoverable_immediate _ _ 3 6 0 rfl (by decide) (by decide)

/-- Claim C8: `getDetailedPrices` (which just runs
`mapProvidersToDetailedPrices` over the aggregator's providers) is a
total function — it never throws — performs no aggregation, and
returns exactly one entry per provider; a provider whose fetch failed
gets an entry with `success = false`, price 0 and the error message. -/
theorem claim_C8_detailedPrices_total (ps : List Provider) :
    (mapProvidersToDetailedPrices ps).length = ps.length ∧
    (∀ i (h : i < (mapProvidersToDetailedPrices ps).length) (h2 : i < ps.length) m,
      (ps.get ⟨i, h2⟩).getHivePrice = Except.error m →
      (mapProvidersToDetailedPrices ps).get ⟨i, h⟩ =
        ⟨(ps.get ⟨i, h2⟩).exchangeName, JSNum.finite 0, false, some m⟩) := by
  constructor
  · simp [mapProvidersToDetailedPrices]
  · intro i h h2 m hm
    rw [List.get_eq_getElem] at hm
    simp [mapProvidersToDetailedPrices, hm]

/-- Witness for claim C8: a single provider whose fetch rejects with
"boom" yields exactly one entry, with `success = false` and the error
message. -/
theorem claim_C8_witness :
    (mapProvidersToDetailedPrices [⟨"Binance", Except.error "boom"⟩]).length = 1 ∧
    (mapProvidersToDetailedPrices [⟨"Binance", Except.error "boom"⟩]).get
        ⟨0, by decide⟩ = ⟨"Binance", JSNum.finite 0, false, some "boom"⟩ :=
  ⟨(claim_C8_detailedPrices_total [⟨"Binance", Except.error "boom"⟩]).1,
    (claim_C8_detailedPrices_total [⟨"Binance", Except.error "boom"⟩]).2 0
      (by decide) (by decide) "boom" rfl⟩

/-- Claim C9: every entry produced by `mapProvidersToExchangePrices`
satisfies the round invariant: a successful entry's price passed
`isValidPrice` (a number, strictly greater than 0, not NaN), and a
failed entry has price 0 and carries an error message. -/
theorem claim_C9_round_invariant (ps : List Provider) :
    ∀ e ∈ mapProvidersToExchangePrices ps,
      (e.success = true → isValidPrice e.price = true) ∧
      (e.success = false → e.price = JSNum.finite 0 ∧ e.error.isSome = true) := by
  intro e he
  obtain ⟨p, _, rfl⟩ := List.mem_map.mp he
  by_cases hname : p.exchangeName = ""
  · simp [hname]
  · cases hg : p.getHivePrice with
    | ok v =>
      by_cases hv : isValidPrice v
      · simp [hname, hg, hv]
      · simp [hname, hg, hv]
    | error m => simp [hname, hg]

/-- Witness for claim C9: a provider returning the valid price 5
yields a successful entry whose price passes `isValidPrice`. -/
theorem claim_C9_witness : isValidPrice (JSNum.finite 5) = true :=
  (claim_C9_round_invariant [⟨"X", Except.ok (JSNum.finite 5)⟩]
    ⟨"X", JSNum.finite 5, true, none⟩ (by decide)).1 rfl

/-- Claim C10: the weight the aggregator attaches is never zero — a
configured weight of 0, like a missing one, falls back to the default
1.0 — and (within the spec's data-model invariant that configured
weights are non-negative) whenever the aggregator reaches the weighted
calculator on a non-empty list of successes the total weight is
strictly positive, so the "Total weight cannot be zero" branch is
unreachable from `getAggregatedHivePrice`. -/
theorem claim_C10_zero_weight_unreachable (cfgs : ProvidersConfig)
    (eps : List ExchangePrice) :
    (jsWeightOrDefault (some 0) = 1 ∧ jsWeightOrDefault none = 1) ∧
    (∀ wp ∈ applyWeights cfgs eps, wp.weight ≠ 0) ∧
    ((∀ c ∈ cfgs, 0 ≤ c.2) → eps ≠ [] → (∀ e ∈ eps, e.success = true) →
      0 < ((applyWeights cfgs eps).map (fun p => p.weight)).sum ∧
      calculateFinalPrice cfgs eps ≠ Except.error "Total weight cannot be zero") := by
  have hwpos : (∀ c ∈ cfgs, 0 ≤ c.2) →
      ∀ wp ∈ applyWeights cfgs eps, 0 < wp.weight := by
    intro hcfg wp hwp
    obtain ⟨ep, _, rfl⟩ := List.mem_map.mp hwp
    apply jsWeightOrDefault_pos
    intro q hq
    obtain ⟨c, hc, hcw⟩ := configWeight_mem cfgs ep.exchange q hq
    exact hcw ▸ hcfg c hc
  refine ⟨⟨rfl, rfl⟩, ?_, ?_⟩
  · intro wp hwp
    obtain ⟨ep, _, rfl⟩ := List.mem_map.mp hwp
    exact jsWeightOrDefault_ne_zero _
  · intro hcfg hne hsucc
    have hsum : 0 < ((applyWeights cfgs eps).map (fun p => p.weight)).sum := by
      apply List.sum_pos
      · intro x hx
        obtain ⟨wp, hwp, rfl⟩ := List.mem_map.mp hx
        exact hwpos hcfg wp hwp
      · simp [applyWeights, hne]
    refine ⟨hsum, ?_⟩
    rw [calculateFinalPrice]
    have hne' : eps.isEmpty = false := by
      cases eps with
      | nil => exact absurd rfl hne
      | cons a l => rfl
    rw [if_neg (by rw [hne']; exact Bool.false_ne_true)]
    by_cases hany : (applyWeights cfgs eps).any (fun p => decide (p.weight ≠ 1))
    · rw [if_pos hany, calculateWeightedAverage]
      rw [applyWeights_filter_success cfgs eps hsucc]
      have hne2 : (applyWeights cfgs eps).isEmpty = false := by
        cases eps with
        | nil => exact absurd rfl hne
        | cons a l => rfl
      rw [if_neg (by rw [hne2]; exact Bool.false_ne_true)]
      rw [if_neg (ne_of_gt hsum)]
      intro hcontra
      exact Except.noConfusion hcontra
    · rw [if_neg hany]
      intro hcontra
      exact Except.noConfusion hcontra

/-- Witness for claim C10: one provider configured with weight 0 and
one successful entry — the attached weight is 1, the total weight is
positive and the zero-total-weight error is not produced. -/
theorem claim_C10_witness :
    0 < ((applyWeights [("a", 0)] [⟨"a", 5, true, none⟩]).map (fun p => p.weight)).sum ∧
    calculateFinalPrice [("a", 0)] [⟨"a", 5, true, none⟩] ≠
      Except.error "Total weight cannot be zero" :=
  (claim_C10_zero_weight_unreachable [("a", 0)] [⟨"a", 5, true, none⟩]).2.2
    (by decide) (by decide) (by decide)

/-- Claim C5: in `executeWithFailover`, a successful attempt returns
immediately with the current node index unchanged (sticky); a
recoverable failure with attempts remaining advances the index by
exactly one position, wrapping modulo the node count; and with nodes
[A, B, C], an operation failing recoverably on A and B and succeeding
on C makes exactly 3 attempts and leaves the current node at C (index
2). -/
theorem claim_C5_sticky_and_rotation :
    (∀ (V : Type) (op : ℕ → OpOutcome V) (len fuel a idx s : ℕ) (v : V),
      op a = OpOutcome.ok v →
      failoverGo op len (fuel + 1) a idx s = ⟨Except.ok v, idx, a + 1, s⟩) ∧
    (∀ (V : Type) (op : ℕ → OpOutcome V) (len fuel a idx s : ℕ) (e : ChainError),
      op a = OpOutcome.err e → isRecoverableChainError e = true →
      failoverGo op len (fuel + 2) a idx s =
        failoverGo op len (fuel + 1) (a + 1) ((idx + 1) % len) (s + 1)) ∧
    (∀ (V : Type) (op : ℕ → OpOutcome V) (e0 e1 : ChainError) (v : V),
      op 0 = OpOutcome.err e0 → op 1 = OpOutcome.err e1 → op 2 = OpOutcome.ok v →
      isRecoverableChainError e0 = true → isRecoverableChainError e1 = true →
      executeWithFailover op 3 6 0 = ⟨Except.ok v, 2, 3, 2⟩) := by
  refine ⟨fun V op len fuel a idx s v h => failoverGo_success op len fuel a idx s v h,
    fun V op len fuel a idx s e h hrec =>
      failoverGo_recoverable_step op len fuel a idx s e h hrec,
    fun V op e0 e1 v h0 h1 h2 hr0 hr1 => ?_⟩
  have s1 : executeWithFailover op 3 6 0 = failoverGo op 3 5 1 1 1 :=
    failoverGo_recoverable_step op 3 4 0 0 0 e0 h0 hr0
  have s2 : failoverGo op 3 5 1 1 1 = failoverGo op 3 4 2 2 2 :=
    failoverGo_recoverable_step op 3 3 1 1 1 e1 h1 hr1
  have s3 : failoverGo op 3 4 2 2 2 = ⟨Except.ok v, 2, 3, 2⟩ :=
    failoverGo_success op 3 3 2 2 2 v h2
  exact s1.trans (s2.trans s3)

/-- Witness for claim C5: two recoverable timeouts then a success make
3 attempts and leave the index at node C (index 2). -/
theorem claim_C5_witness :
    executeWithFailover
      (fun n => if n < 2 then OpOutcome.err ⟨"WaxRequestTimeoutError"⟩
                else OpOutcome.ok (0 : ℕ)) 3 6 0 =
      ⟨Except.ok 0, 2, 3, 2⟩ :=
  claim_C5_sticky_and_rotation.2.2 ℕ _ ⟨"WaxRequestTimeoutError"⟩
    ⟨"WaxRequestTimeoutError"⟩ 0 rfl rfl rfl rfl rfl

/-- Counterexample for claim C4: a message carrying a rate-limit
marker whose parsed `Retry-After` is 0 seconds.  The Retry-After value
is present, so the claim demands delay 0 × 1000 = 0 — but the
produced error's `getRetryDelay` tests `this.retryAfter` for
truthiness and falls back to 5000 ms. -/
theorem claim_C4_counterexample :
    createPriceError ⟨false, false, true, some 0, none⟩ =
      TypedPriceError.apiRateLimited (some 0) ∧
    getRetryDelay (createPriceError ⟨false, false, true, some 0, none⟩) = 5000 ∧
    (5000 : ℕ) ≠ 0 * 1000 := by
  refine ⟨rfl, rfl, ?_⟩
  norm_num

/-- Claim C4 (amended): the classifier applies the first matching rule
in the claimed order, and the produced error reports the claimed
retryability and delay — except that the parsed `Retry-After` drives
the rate-limited delay only when it is present and nonzero; a parsed
value of 0 falls back to 5000 ms like an absent one. -/
theorem claim_C4_classifier_table (m : ErrorFeatures) :
    (m.hasTimeoutMarker = true →
      createPriceError m = TypedPriceError.networkTimeout ∧
      isRetryable (createPriceError m) = true ∧
      getRetryDelay (createPriceError m) = 2000) ∧
    (m.hasTimeoutMarker = false → m.hasConnectionFailureMarker = true →
      createPriceError m = TypedPriceError.networkConnectionFailed ∧
      isRetryable (createPriceError m) = true ∧
      getRetryDelay (createPriceError m) = 3000) ∧
    (m.hasTimeoutMarker = false → m.hasConnectionFailureMarker = false →
      m.hasRateLimitMarker = true →
      createPriceError m = TypedPriceError.apiRateLimited m.retryAfter ∧
      isRetryable (createPriceError m) = true ∧
      (∀ n, m.retryAfter = some n → n ≠ 0 →
        getRetryDelay (createPriceError m) = n * 1000) ∧
      (m.retryAfter = none ∨ m.retryAfter = some 0 →
        getRetryDelay (createPriceError m) = 5000)) ∧
    (∀ s, m.hasTimeoutMarker = false → m.hasConnectionFailureMarker = false →
      m.hasRateLimitMarker = false → m.httpStatus = some s → 500 ≤ s →
      createPriceError m = TypedPriceError.apiServerError ∧
      isRetryable (createPriceError m) = true ∧
      getRetryDelay (createPriceError m) = 3000) ∧
    (m.hasTimeoutMarker = false → m.hasConnectionFailureMarker = false →
      m.hasRateLimitMarker = false → m.httpStatus = some 404 →
      createPriceError m = TypedPriceError.apiNotFound ∧
      isRetryable (createPriceError m) = false) ∧
    (m.hasTimeoutMarker = false → m.hasConnectionFailureMarker = false →
      m.hasRateLimitMarker = false →
      (m.httpStatus = some 401 ∨ m.httpStatus = some 403) →
      createPriceError m = TypedPriceError.apiUnauthorized ∧
      isRetryable (createPriceError m) = false) ∧
    (m.hasTimeoutMarker = false → m.hasConnectionFailureMarker = false →
      m.hasRateLimitMarker = false →
      (∀ s, m.httpStatus = some s → s < 500 ∧ s ≠ 404 ∧ s ≠ 401 ∧ s ≠ 403) →
      createPriceError m = TypedPriceError.apiInvalidResponse ∧
      isRetryable (createPriceError m) = false) := by
  refine ⟨?_, ?_, ?_, ?_, ?_, ?_, ?_⟩
  · intro ht
    simp [createPriceError, isRetryable, getRetryDelay, ht]
  · intro ht hc
    simp [createPriceError, isRetryable, getRetryDelay, ht, hc]
  · intro ht hc hr
    refine ⟨by simp [createPriceError, ht, hc, hr], by
        simp [createPriceError, isRetryable, ht, hc, hr], ?_, ?_⟩
    · intro n hn hn0
      simp [createPriceError, getRetryDelay, ht, hc, hr, hn, hn0]
    · intro hra
      rcases hra with hra | hra <;>
        simp [createPriceError, getRetryDelay, ht, hc, hr, hra]
  · intro s ht hc hr hs h500
    simp [createPriceError, isRetryable, getRetryDelay, ht, hc, hr, hs, if_pos h500]
  · intro ht hc hr hs
    have h500 : ¬(500 ≤ 404) := by norm_num
    simp [createPriceError, isRetryable, ht, hc, hr, hs, if_neg h500]
  · intro ht hc hr hs
    rcases hs with hs | hs <;>
      simp [createPriceError, isRetryable, ht, hc, hr, hs]
  · intro ht hc hr hs
    cases hstat : m.httpStatus with
    | none => simp [createPriceError, isRetryable, ht, hc, hr, hstat]
    | some s =>
      obtain ⟨hlt, h404, h401, h403⟩ := hs s hstat
      simp [createPriceError, isRetryable, ht, hc, hr, hstat,
        if_neg (by omega : ¬(500 ≤ s)), h404, h401, h403]

/-- Witness for claim C4's amended table: a bare HTTP 503 message
classifies as a retryable server error with a 3000 ms delay. -/
theorem claim_C4_witness :
    createPriceError ⟨false, false, false, none, some 503⟩ =
      TypedPriceError.apiServerError ∧
    isRetryable (createPriceError ⟨false, false, false, none, some 503⟩) = true ∧
    getRetryDelay (createPriceError ⟨false, false, false, none, some 503⟩) = 3000 :=
  (claim_C4_classifier_table ⟨false, false, false, none, some 503⟩).2.2.2.1 503
    rfl rfl rfl rfl (by norm_num)

theorem retryGo_attempts_le {E V : Type} (d : ℚ) (fn : ℕ → Except E V) :
    ∀ fuel a ds le, (retryGo d fn fuel a ds le).attempts ≤ a - 1 + fuel := by
  intro fuel
  induction fuel with
  | zero => intro a ds le; simp [retryGo]
  | succ g ih =>
    intro a ds le
    rw [retryGo]
    cases hf : fn a with
    | ok v => simp; omega
    | error e =>
      by_cases hg : g = 0
      · subst hg; simp; omega
      · simp [hg]
        calc (retryGo d fn g (a + 1) _ _).attempts ≤ (a + 1) - 1 + g := ih (a + 1) _ _
          _ ≤ a - 1 + (g + 1) := by omega

theorem retryGo_attempts_ge {E V : Type} (d : ℚ) (fn : ℕ → Except E V) :
    ∀ fuel a ds le, 1 ≤ fuel → a ≤ (retryGo d fn fuel a ds le).attempts := by
  intro fuel
  induction fuel with
  | zero => intro a ds le h; exact absurd h (by norm_num)
  | succ g ih =>
    intro a ds le _
    rw [retryGo]
    cases hf : fn a with
    | ok v => simp
    | error e =>
      by_cases hg : g = 0
      · subst hg; simp
      · simp [hg]
        have := ih (a + 1) (ds ++ [d * 2 ^ (a - 1)]) (some e) (by omega)
        omega

theorem retryGo_delays_spec {E V : Type} (d : ℚ) (fn : ℕ → Except E V) :
    ∀ fuel a ds le, 1 ≤ a →
      (retryGo d fn fuel a ds le).delays =
        ds ++ (List.range' (a - 1) ((retryGo d fn fuel a ds le).attempts - a)).map
          (fun i => d * 2 ^ i) := by
  intro fuel
  induction fuel with
  | zero => intro a ds le ha; simp [retryGo, Nat.sub_sub, Nat.sub_eq_zero_of_le]
  | succ g ih =>
    intro a ds le ha
    rw [retryGo]
    cases hf : fn a with
    | ok v => simp
    | error e =>
      by_cases hg : g = 0
      · subst hg; simp
      · dsimp only
        rw [if_neg hg]
        have hA : a + 1 ≤ (retryGo d fn g (a + 1) (ds ++ [d * 2 ^ (a - 1)]) (some e)).attempts :=
          retryGo_attempts_ge d fn g (a + 1) _ _ (by omega)
        have hrec := ih (a + 1) (ds ++ [d * 2 ^ (a - 1)]) (some e) (by omega)
        rw [hrec]
        have hk : (retryGo d fn g (a + 1) (ds ++ [d * 2 ^ (a - 1)]) (some e)).attempts - a =
            ((retryGo d fn g (a + 1) (ds ++ [d * 2 ^ (a - 1)]) (some e)).attempts - (a + 1)) + 1 := by
          omega
        rw [hk, List.range'_succ, show a - 1 + 1 = a from by omega]
        simp

theorem retryGo_first_success {E V : Type} (d : ℚ) (fn : ℕ → Except E V) :
    ∀ fuel a ds le k v, a ≤ k → k < a + fuel →
      (∀ i, a ≤ i → i < k → ∃ e, fn i = Except.error e) → fn k = Except.ok v →
      (retryGo d fn fuel a ds le).result = Except.ok v ∧
      (retryGo d fn fuel a ds le).attempts = k := by
  intro fuel
  induction fuel with
  | zero => intro a ds le k v hak hk _ _; exfalso; omega
  | succ g ih =>
    intro a ds le k v hak hk hfail hok
    rw [retryGo]
    rcases Nat.eq_or_lt_of_le hak with heq | hlt
    · subst heq
      rw [hok]
      exact ⟨rfl, rfl⟩
    · obtain ⟨e, he⟩ := hfail a le_rfl hlt
      rw [he]
      have hg : g ≠ 0 := by omega
      dsimp only
      rw [if_neg hg]
      exact ih (a + 1) _ _ k v (by omega) (by omega)
        (fun i hi1 hi2 => hfail i (by omega) hi2) hok

theorem retryGo_exhaust {E V : Type} (d : ℚ) (fn : ℕ → Except E V) :
    ∀ fuel a ds le e, 1 ≤ fuel →
      (∀ i, a ≤ i → i < a + fuel → ∃ er, fn i = Except.error er) →
      fn (a + fuel - 1) = Except.error e →
      (retryGo d fn fuel a ds le).result = Except.error (some e) ∧
      (retryGo d fn fuel a ds le).attempts = a + fuel - 1 := by
  intro fuel
  induction fuel with
  | zero => intro a ds le e h _ _; exact absurd h (by norm_num)
  | succ g ih =>
    intro a ds le e _ hfail hlast
    rw [retryGo]
    by_cases hg : g = 0
    · subst hg
      rw [show a + 1 - 1 = a from by omega] at hlast
      rw [hlast]
      simp
    · obtain ⟨er, her⟩ := hfail a (by omega) (by omega)
      rw [her]
      dsimp only
      rw [if_neg hg]
      have := ih (a + 1) (ds ++ [d * 2 ^ (a - 1)]) (some er) e (by omega)
        (fun i hi1 hi2 => hfail i (by omega) (by omega))
        (by rw [show a + 1 + g - 1 = a + (g + 1) - 1 from by omega]; exact hlast)
      rw [show a + 1 + g - 1 = a + (g + 1) - 1 from by omega] at this
      exact this

theorem fetchWithRetry_attempts_le {E V : Type} (n : ℕ) (d : ℚ) (fn : ℕ → Except E V) :
    (fetchWithRetry n d fn).attempts ≤ n := by
  have := retryGo_attempts_le d fn n 1 [] none
  simpa [fetchWithRetry] using this

theorem fetchWithRetry_delays {E V : Type} (n : ℕ) (d : ℚ) (fn : ℕ → Except E V) :
    (fetchWithRetry n d fn).delays =
      (List.range ((fetchWithRetry n d fn).attempts - 1)).map (fun i => d * 2 ^ i) := by
  have := retryGo_delays_spec d fn n 1 [] none le_rfl
  simpa [fetchWithRetry, List.range_eq_range'] using this

theorem fetchWithRetry_first_success {E V : Type} (n : ℕ) (d : ℚ) (fn : ℕ → Except E V)
    (k : ℕ) (v : V) (hk1 : 1 ≤ k) (hkn : k ≤ n)
    (hfail : ∀ i, 1 ≤ i → i < k → ∃ e, fn i = Except.error e)
    (hok : fn k = Except.ok v) :
    (fetchWithRetry n d fn).result = Except.ok v ∧
    (fetchWithRetry n d fn).attempts = k :=
  retryGo_first_success d fn n 1 [] none k v hk1 (by omega) hfail hok

theorem fetchWithRetry_exhaust {E V : Type} (n : ℕ) (d : ℚ) (fn : ℕ → Except E V)
    (e : E) (hn : 1 ≤ n)
    (hfail : ∀ i, 1 ≤ i → i ≤ n → ∃ er, fn i = Except.error er)
    (hlast : fn n = Except.error e) :
    (fetchWithRetry n d fn).result = Except.error (some e) ∧
    (fetchWithRetry n d fn).attempts = n := by
  have := retryGo_exhaust d fn n 1 [] none e hn
    (fun i hi1 hi2 => hfail i hi1 (by omega))
    (by rw [show 1 + n - 1 = n from by omega]; exact hlast)
  rw [show 1 + n - 1 = n from by omega] at this
  exact this

/-- Claim C7: `fetchWithRetry` makes at most `retryAttempts` tries;
its sleeps are exactly `retryDelay * 2 ^ (attempt - 1)` between
consecutive tries and never before the first; it returns the first
successful result; it surfaces the last error only after all attempts
are exhausted; and a fetch failing on its first two attempts and
succeeding with 10.500 on the third is retried exactly twice, with
increasing delays, and returns 10.500. -/
theorem claim_C7_fetchWithRetry :
    (∀ (E V : Type) (n : ℕ) (d : ℚ) (fn : ℕ → Except E V),
      (fetchWithRetry n d fn).attempts ≤ n) ∧
    (∀ (E V : Type) (n : ℕ) (d : ℚ) (fn : ℕ → Except E V),
      (fetchWithRetry n d fn).delays =
        (List.range ((fetchWithRetry n d fn).attempts - 1)).map (fun i => d * 2 ^ i)) ∧
    (∀ (E V : Type) (n : ℕ) (d : ℚ) (fn : ℕ → Except E V) (k : ℕ) (v : V),
      1 ≤ k → k ≤ n → (∀ i, 1 ≤ i → i < k → ∃ e, fn i = Except.error e) →
      fn k = Except.ok v →
      (fetchWithRetry n d fn).result = Except.ok v ∧
      (fetchWithRetry n d fn).attempts = k) ∧
    (∀ (E V : Type) (n : ℕ) (d : ℚ) (fn : ℕ → Except E V) (e : E),
      1 ≤ n → (∀ i, 1 ≤ i → i ≤ n → ∃ er, fn i = Except.error er) →
      fn n = Except.error e →
      (fetchWithRetry n d fn).result = Except.error (some e) ∧
      (fetchWithRetry n d fn).attempts = n) ∧
    (∀ (fn : ℕ → Except String ℚ) (e1 e2 : String),
      fn 1 = Except.error e1 → fn 2 = Except.error e2 → fn 3 = Except.ok (21 / 2) →
      fetchWithRetry 3 1000 fn = ⟨Except.ok (21 / 2), 3, [1000, 2000]⟩ ∧
      (1000 : ℚ) < 2000) := by
  refine ⟨fun E V n d fn => fetchWithRetry_attempts_le n d fn,
    fun E V n d fn => fetchWithRetry_delays n d fn,
    fun E V n d fn k v hk1 hkn hfail hok =>
      fetchWithRetry_first_success n d fn k v hk1 hkn hfail hok,
    fun E V n d fn e hn hfail hlast =>
      fetchWithRetry_exhaust n d fn e hn hfail hlast,
    fun fn e1 e2 h1 h2 h3 => ?_⟩
  refine ⟨?_, by norm_num⟩
  have hfail : ∀ i, 1 ≤ i → i < 3 → ∃ e, fn i = Except.error e := by
    intro i hi1 hi3
    have : i = 1 ∨ i = 2 := by omega
    rcases this with rfl | rfl
    · exact ⟨e1, h1⟩
    · exact ⟨e2, h2⟩
  have hfs := fetchWithRetry_first_success 3 1000 fn 3 (21 / 2) (by omega) (by omega)
    hfail h3
  have hd := fetchWithRetry_delays 3 1000 fn
  rcases hfr : fetchWithRetry 3 1000 fn with ⟨res, att, dls⟩
  rw [hfr] at hfs hd
  obtain ⟨hres, hatt⟩ := hfs
  subst hres hatt
  norm_num [List.range_succ] at hd
  rw [hd]

/-- Witness for claim C7: the concrete fetch failing twice then
returning 10.5 on the third call. -/
theorem claim_C7_witness :
    fetchWithRetry 3 1000
        (fun n => if n < 3 then Except.error "transient" else Except.ok ((21 : ℚ) / 2)) =
      ⟨Except.ok (21 / 2), 3, [1000, 2000]⟩ ∧
    (1000 : ℚ) < 2000 :=
  claim_C7_fetchWithRetry.2.2.2.2 _ "transient" "transient" rfl rfl rfl

theorem aggGo_step_fail (cfgs : ProvidersConfig) (rounds : RoundFn)
    (maxRetries fuel attempt : ℕ) (ds : List ℚ)
    (h : roundSuccesses (rounds attempt) = []) (hfuel : fuel ≠ 0) :
    aggGo cfgs rounds maxRetries (fuel + 1) attempt ds =
      aggGo cfgs rounds maxRetries fuel (attempt + 1) (ds ++ [2000 * (attempt : ℚ)]) := by
  rw [aggGo]
  cases hr : rounds attempt with
  | error e => simp [hfuel]
  | ok eps =>
    rw [hr] at h
    simp only [roundSuccesses] at h
    simp [h, hfuel]

theorem aggGo_exhaust (cfgs : ProvidersConfig) (rounds : RoundFn)
    (maxRetries attempt : ℕ) (ds : List ℚ)
    (h : roundSuccesses (rounds attempt) = []) :
    aggGo cfgs rounds maxRetries 1 attempt ds =
      ⟨Except.error (finalFailureMessage maxRetries), attempt, ds⟩ := by
  rw [aggGo]
  cases hr : rounds attempt with
  | error e => simp
  | ok eps =>
    rw [hr] at h
    simp only [roundSuccesses] at h
    simp [h]

/-- Claim C2: when every round yields zero successful prices,
`getAggregatedHivePrice` runs exactly 3 rounds (the fixed
`maxRetries`), sleeps `2000 * attemptNumber` ms between consecutive
rounds (2000 then 4000), and then throws a single terminal error whose
message states the retry count. -/
theorem claim_C2_all_rounds_fail (cfgs : ProvidersConfig) (rounds : RoundFn)
    (h : ∀ a, roundSuccesses (rounds a) = []) :
    getAggregatedHivePrice cfgs rounds =
      ⟨Except.error (finalFailureMessage 3), 3, [2000, 4000]⟩ ∧
    finalFailureMessage 3 =
      "Failed to obtain HIVE price after 3 attempts. All exchanges failed or timed out." := by
  refine ⟨?_, rfl⟩
  have e1 : getAggregatedHivePrice cfgs rounds =
      aggGo cfgs rounds 3 2 2 ([] ++ [2000 * ((1 : ℕ) : ℚ)]) :=
    aggGo_step_fail cfgs rounds 3 2 1 [] (h 1) (by norm_num)
  have e2 : aggGo cfgs rounds 3 2 2 ([] ++ [2000 * ((1 : ℕ) : ℚ)]) =
      aggGo cfgs rounds 3 1 3
        (([] ++ [2000 * ((1 : ℕ) : ℚ)]) ++ [2000 * ((2 : ℕ) : ℚ)]) :=
    aggGo_step_fail cfgs rounds 3 1 2 ([] ++ [2000 * ((1 : ℕ) : ℚ)]) (h 2) (by norm_num)
  have e3 : aggGo cfgs rounds 3 1 3
        (([] ++ [2000 * ((1 : ℕ) : ℚ)]) ++ [2000 * ((2 : ℕ) : ℚ)]) =
      ⟨Except.error (finalFailureMessage 3), 3,
        ([] ++ [2000 * ((1 : ℕ) : ℚ)]) ++ [2000 * ((2 : ℕ) : ℚ)]⟩ :=
    aggGo_exhaust cfgs rounds 3 3 (([] ++ [2000 * ((1 : ℕ) : ℚ)]) ++ [2000 * ((2 : ℕ) : ℚ)]) (h 3)
  rw [e1, e2, e3]
  norm_num

/-- Witness for claim C2: rounds that always resolve with an empty
price list. -/
theorem claim_C2_witness :
    getAggregatedHivePrice [] (fun _ => Except.ok []) =
      ⟨Except.error (finalFailureMessage 3), 3, [2000, 4000]⟩ ∧
    finalFailureMessage 3 =
      "Failed to obtain HIVE price after 3 attempts. All exchanges failed or timed out." :=
  claim_C2_all_rounds_fail [] (fun _ => Except.ok []) (fun _ => rfl)

/-- Counterexample for claim C1: a provider configured with weight 0.
The claim attaches the configured weight (defaulting only when
absent), so it predicts the weighted branch with total weight 0 and
hence a failure — but the code's `config?.weight || 1.0` replaces the
falsy 0 by 1.0 and returns the plain mean. -/
theorem claim_C1_counterexample :
    calculateFinalPrice [("binance", 0)] [⟨"Binance", 5, true, none⟩] = Except.ok 5 ∧
    claimedFinalPrice [("binance", 0)] [⟨"Binance", 5, true, none⟩] =
      Except.error "Total weight cannot be zero" := by
  have hkey : toLowerKey "Binance" = "binance" := by decide
  have hkey2 : toLowerKey "binance" = "binance" := by decide
  constructor
  · norm_num [calculateFinalPrice, applyWeights, configWeight, hkey, hkey2,
      jsWeightOrDefault, List.lookup, roundToThreeDecimals, round_eq,
      calculateWeightedAverage]
  · norm_num [claimedFinalPrice, configWeight, hkey, hkey2, List.lookup]

theorem applyWeights_any_ne_one (cfgs : ProvidersConfig) (eps : List ExchangePrice) :
    ((eps.map
        (fun ep => (ep.price, jsWeightOrDefault (configWeight cfgs ep.exchange)))).any
          (fun pw => decide (pw.2 ≠ 1))) =
      ((applyWeights cfgs eps).any (fun p => decide (p.weight ≠ 1))) := by
  induction eps with
  | nil => rfl
  | cons a l ih =>
    simp only [List.map_cons, List.any_cons, applyWeights] at ih ⊢
    rw [ih]

/-- Claim C1 (amended): for every non-empty list of successful
entries, `calculateFinalPrice` attaches each entry the weight
`config?.weight || 1.0` (the default 1.0 applies when the configured
weight is absent or 0); if any attached weight differs from 1.0 it
returns Σ(price × weight) / Σ(weight) rounded to three decimals,
failing when the total weight is zero, and otherwise it returns the
rounded plain arithmetic mean. -/
theorem claim_C1_weighting (cfgs : ProvidersConfig) (eps : List ExchangePrice)
    (hne : eps ≠ []) (hsucc : ∀ e ∈ eps, e.success = true) :
    calculateFinalPrice cfgs eps = amendedFinalPrice cfgs eps := by
  have hne' : eps.isEmpty = false := by
    cases eps with
    | nil => exact absurd rfl hne
    | cons a l => rfl
  rw [calculateFinalPrice, amendedFinalPrice]
  dsimp only
  rw [if_neg (by rw [hne']; exact Bool.false_ne_true)]
  rw [applyWeights_any_ne_one cfgs eps]
  by_cases hany : (applyWeights cfgs eps).any (fun p => decide (p.weight ≠ 1)) = true
  · rw [if_pos hany, if_pos hany]
    rw [calculateWeightedAverage]
    dsimp only
    rw [applyWeights_filter_success cfgs eps hsucc]
    have hne3 : ¬((applyWeights cfgs eps).isEmpty = true) := by
      cases eps with
      | nil => exact absurd rfl hne
      | cons a l => simp [applyWeights]
    rw [if_neg hne3]
    have hW : ((applyWeights cfgs eps).map (fun p => p.weight)).sum =
        ((eps.map
          (fun ep => (ep.price, jsWeightOrDefault (configWeight cfgs ep.exchange)))).map
            (fun pw => pw.2)).sum := by
      simp [applyWeights, List.map_map, Function.comp_def]
    rw [← hW]
    by_cases hW0 : ((applyWeights cfgs eps).map (fun p => p.weight)).sum = 0
    · rw [if_pos hW0, if_pos hW0]
    · rw [if_neg hW0, if_neg hW0]
      congr 1
      rw [sum_map_mul_div]
      congr 1
      simp [applyWeights, List.map_map, Function.comp_def]
  · rw [if_neg hany, if_neg hany]

/-- Witness for claim C1 (amended): two successful entries [9 with
configured weight 2, 12 unconfigured] trigger the weighted branch. -/
theorem claim_C1_witness :
    calculateFinalPrice [("x", 2)] [⟨"x", 9, true, none⟩, ⟨"y", 12, true, none⟩] =
      amendedFinalPrice [("x", 2)] [⟨"x", 9, true, none⟩, ⟨"y", 12, true, none⟩] :=
  claim_C1_weighting [("x", 2)] [⟨"x", 9, true, none⟩, ⟨"y", 12, true, none⟩]
    (by decide) (by decide)

end HiveFeed
